import Mathlib

/-!
Shallow embedding of `crates/ra_assists/src/assist_ctx.rs`: the assist
context (`AssistCtx`), the result model (`Assist`), and the edit
accumulator (`ActionBuilder`), together with interface models of the
external collaborators they call (the parse database, syntax-tree queries,
indentation utilities, and the text-edit builder).

Panics (`assert!`, `Option::unwrap` on `None`) are modelled by returning
`Except.error` with the panic message; normal returns are `Except.ok`.
Closures that mutate a `&mut` receiver are modelled as state-passing
functions.
-/

/-- Offsets into the text, modelling `TextUnit` from `ra_syntax`. -/
abbrev TextUnit := Nat

/-- A contiguous range of text offsets, modelling `ra_syntax::TextRange`
(start inclusive, stop exclusive). -/
structure TextRange where
  start : Nat
  stop : Nat
deriving DecidableEq

/-- Modelled from the spec: whether an offset lies on the range
(boundary offsets included, as for `ra_syntax` token queries). -/
def TextRange.containsOffset (r : TextRange) (o : Nat) : Bool :=
  decide (r.start ≤ o) && decide (o ≤ r.stop)

/-- Modelled from the spec: whether `r` contains the whole of `s`. -/
def TextRange.containsRange (r s : TextRange) : Bool :=
  decide (r.start ≤ s.start) && decide (s.stop ≤ r.stop)

/-- A file identifier plus a range inside that file, modelling
`ra_db::FileRange`. -/
structure FileRange where
  file_id : Nat
  range : TextRange
deriving DecidableEq

/-- Modelled from the spec: the textual-edit primitive (external crate
`ra_text_edit`, not part of this core) is a sequence of non-overlapping
replace operations; one atom replaces the `delete` range by `insert`. -/
structure AtomTextEdit where
  delete : TextRange
  insert : String
deriving DecidableEq

/-- Modelled from the spec: a finished textual edit, an ordered sequence of
atomic operations (external crate `ra_text_edit`). -/
structure TextEdit where
  atoms : List AtomTextEdit
deriving DecidableEq

/-- Modelled from the spec: the mutable builder of a `TextEdit` (external
crate `ra_text_edit`); operations append atoms in call order. -/
structure TextEditBuilder where
  atoms : List AtomTextEdit
deriving DecidableEq

/-- The empty `TextEditBuilder`, modelling `TextEditBuilder::default()`. -/
def TextEditBuilder.default : TextEditBuilder :=
  { atoms := [] }

/-- Modelled from the spec: `TextEditBuilder::replace` appends one replace
operation over `range`. -/
def TextEditBuilder.replace (b : TextEditBuilder) (range : TextRange)
    (replace_with : String) : TextEditBuilder :=
  { atoms := b.atoms ++ [{ delete := range, insert := replace_with }] }

/-- Modelled from the spec: `TextEditBuilder::insert` appends an insertion
at `offset` (a replace of the empty range at `offset`). -/
def TextEditBuilder.insert (b : TextEditBuilder) (offset : TextUnit)
    (text : String) : TextEditBuilder :=
  b.replace { start := offset, stop := offset } text

/-- Modelled from the spec: `TextEditBuilder::delete` appends a deletion of
`range` (a replace by the empty string). -/
def TextEditBuilder.delete (b : TextEditBuilder) (range : TextRange) :
    TextEditBuilder :=
  b.replace range ""

/-- Modelled from the spec: `TextEditBuilder::finish` freezes the
accumulated operations into a `TextEdit`. -/
def TextEditBuilder.finish (b : TextEditBuilder) : TextEdit :=
  { atoms := b.atoms }

/-- Modelled from the spec: the opaque stable identity of a transformation
(`AssistId` from the crate root, which is outside this file). -/
structure AssistId where
  value : String
deriving DecidableEq

/-- Modelled from the spec: a transformation identity paired with its
human-readable label (`AssistLabel` from the crate root). Built at
registration as `AssistLabel { label: label.into(), id }`. -/
structure AssistLabel where
  label : String
  id : AssistId
deriving DecidableEq

/-- Modelled from the spec: a finalized Action (`AssistAction` from the
crate root): a textual edit, an optional post-apply cursor position, an
optional specificity range, and an optional override label. -/
structure AssistAction where
  edit : TextEdit
  cursor_position : Option TextUnit
  target : Option TextRange
  label : Option String
deriving DecidableEq

/-- Modelled from the spec: a resolved assist (`ResolvedAssist` from the
crate root): the label plus either exactly one Action (`Sum.inl`, Rust's
`Either::Left`) or a group of Actions (`Sum.inr`, Rust's `Either::Right`). -/
structure ResolvedAssist where
  label : AssistLabel
  action_data : Sum AssistAction (List AssistAction)
deriving DecidableEq

/-- The result model `Assist` from `assist_ctx.rs`: `Unresolved` carries
only the label, `Resolved` carries the label and concrete edit(s). -/
inductive Assist : Type where
  | Unresolved (label : AssistLabel)
  | Resolved (assist : ResolvedAssist)
deriving DecidableEq

/-- The edit accumulator `ActionBuilder` from `assist_ctx.rs`. -/
structure ActionBuilder where
  edit : TextEditBuilder
  cursor_position : Option TextUnit
  target : Option TextRange
  label : Option String
deriving DecidableEq

/-- `ActionBuilder::default()`: all fields empty (`#[derive(Default)]`). -/
def ActionBuilder.default : ActionBuilder :=
  { edit := TextEditBuilder.default
    cursor_position := none
    target := none
    label := none }

/-- `ActionBuilder::replace`: replaces the specified `range` of text with a
given string, by appending to the inner `TextEditBuilder`. -/
def ActionBuilder.replace (b : ActionBuilder) (range : TextRange)
    (replace_with : String) : ActionBuilder :=
  { b with edit := b.edit.replace range replace_with }

/-- `ActionBuilder::delete`: removes the specified `range` of text. -/
def ActionBuilder.delete (b : ActionBuilder) (range : TextRange) :
    ActionBuilder :=
  { b with edit := b.edit.delete range }

/-- `ActionBuilder::insert`: appends `text` at the given `offset`. -/
def ActionBuilder.insert (b : ActionBuilder) (offset : TextUnit)
    (text : String) : ActionBuilder :=
  { b with edit := b.edit.insert offset text }

/-- `ActionBuilder::set_cursor`: specifies the desired position of the
cursor after the assist is applied. -/
def ActionBuilder.set_cursor (b : ActionBuilder) (offset : TextUnit) :
    ActionBuilder :=
  { b with cursor_position := some offset }

/-- `ActionBuilder::build`: freezes the builder into an `AssistAction`. -/
def ActionBuilder.build (b : ActionBuilder) : AssistAction :=
  { edit := b.edit.finish
    cursor_position := b.cursor_position
    target := b.target
    label := b.label }

/-- Modelled from the spec: the immutable syntax tree (external crate
`ra_syntax`, out of scope of this core). An element is a token leaf or an
interior node; both carry a kind (as a number) and a text range. This one
type plays the roles of `SyntaxNode`, `SyntaxToken` and `SyntaxElement`. -/
inductive SyntaxTree : Type where
  | token (kind : Nat) (range : TextRange)
  | node (kind : Nat) (range : TextRange) (children : List SyntaxTree)

/-- The kind of a tree element, modelling `SyntaxElement::kind()`. -/
def SyntaxTree.kind : SyntaxTree → Nat
  | .token k _ => k
  | .node k _ _ => k

/-- The span of a tree element, modelling `SyntaxElement::text_range()`. -/
def SyntaxTree.range : SyntaxTree → TextRange
  | .token _ r => r
  | .node _ r _ => r

mutual
/-- Modelled from the spec: `token_at_offset` locates the token(s) covering
a single point; an offset on the boundary of two tokens yields both
(`TokenAtOffset::Between`), one inside a token yields it alone
(`TokenAtOffset::Single`), none yields the empty list. -/
def SyntaxTree.tokensAtOffset (o : Nat) : SyntaxTree → List SyntaxTree
  | .token k r => if r.containsOffset o then [.token k r] else []
  | .node _ _ cs => tokensAtOffsetList o cs

/-- Helper of `SyntaxTree.tokensAtOffset` for a list of children. -/
def tokensAtOffsetList (o : Nat) : List SyntaxTree → List SyntaxTree
  | [] => []
  | c :: cs => c.tokensAtOffset o ++ tokensAtOffsetList o cs
end

mutual
/-- Modelled from the spec: the interior nodes whose span contains the
offset, listed from the root down (so the last one is the innermost). -/
def SyntaxTree.nodesAtOffset (o : Nat) : SyntaxTree → List SyntaxTree
  | .token _ _ => []
  | .node k r cs =>
    if r.containsOffset o then .node k r cs :: nodesAtOffsetList o cs else []

/-- Helper of `SyntaxTree.nodesAtOffset` for a list of children. -/
def nodesAtOffsetList (o : Nat) : List SyntaxTree → List SyntaxTree
  | [] => []
  | c :: cs => c.nodesAtOffset o ++ nodesAtOffsetList o cs
end

/-- Modelled from the spec: `ra_syntax::algo::find_node_at_offset` locates
the innermost node of the requested structural kind covering the offset,
or nothing when no such node exists. -/
def algo.find_node_at_offset (root : SyntaxTree) (o : Nat) (kind : Nat) :
    Option SyntaxTree :=
  ((root.nodesAtOffset o).filter (fun n => n.kind == kind)).getLast?

mutual
/-- Modelled from the spec: `ra_syntax::algo::find_covering_element`
locates the smallest tree element (node or token) whose span contains the
entire given range. -/
def find_covering_element (t : SyntaxTree) (r : TextRange) : SyntaxTree :=
  match t with
  | .token k rg => .token k rg
  | .node k rg cs =>
    match findCoveringChild r cs with
    | some e => e
    | none => .node k rg cs

/-- Helper of `find_covering_element`: descends into the first child whose
span contains the range, if any. -/
def findCoveringChild (r : TextRange) : List SyntaxTree → Option SyntaxTree
  | [] => none
  | c :: cs =>
    if c.range.containsRange r then some (find_covering_element c r)
    else findCoveringChild r cs
end

/-- Modelled from the spec: a parsed file (external `ra_syntax::SourceFile`);
`root` models the `syntax()` accessor returning the root node. -/
structure SourceFile where
  root : SyntaxTree

/-- `SourceFile::clone()`: parse trees are immutable and reference-counted,
so cloning yields a handle to the very same tree (structural sharing). -/
def SourceFile.clone (s : SourceFile) : SourceFile := s

/-- Modelled from the spec: the source provider (external `HirDatabase`);
`parse` returns the current parsed tree of a file id (the Rust
`db.parse(file_id)` followed by `.tree()`). -/
structure HirDatabase where
  parse : Nat → SourceFile

/-- The context `AssistCtx` from `assist_ctx.rs`: the database handle, the
target file range, the parsed file, and the execution-mode flag. -/
structure AssistCtx where
  db : HirDatabase
  frange : FileRange
  source_file : SourceFile
  should_compute_edit : Bool

/-- `impl Clone for AssistCtx`: copies `db`, `frange` and
`should_compute_edit`, and clones the parse-tree handle. -/
def AssistCtx.clone (ctx : AssistCtx) : AssistCtx :=
  { db := ctx.db
    frange := ctx.frange
    source_file := ctx.source_file.clone
    should_compute_edit := ctx.should_compute_edit }

/-- `AssistCtx::with_ctx`: parses the file named by the range, builds the
context and hands it to the continuation. -/
def AssistCtx.with_ctx {T : Type} (db : HirDatabase) (frange : FileRange)
    (should_compute_edit : Bool) (f : AssistCtx → T) : T :=
  let parsed := db.parse frange.file_id
  f { db := db, frange := frange, source_file := parsed
      should_compute_edit := should_compute_edit }

/-- `AssistCtx::token_at_offset`: the tokens at the start of the target
range. -/
def AssistCtx.token_at_offset (ctx : AssistCtx) : List SyntaxTree :=
  ctx.source_file.root.tokensAtOffset ctx.frange.range.start

/-- `AssistCtx::find_token_at_offset`: the first token at the start of the
target range that has the requested kind. -/
def AssistCtx.find_token_at_offset (ctx : AssistCtx) (kind : Nat) :
    Option SyntaxTree :=
  ctx.token_at_offset.find? (fun it => it.kind == kind)

/-- `AssistCtx::find_node_at_offset`: the innermost node of the requested
kind at the start of the target range (the Rust type parameter `N` is
modelled by its syntax kind). -/
def AssistCtx.find_node_at_offset (ctx : AssistCtx) (kind : Nat) :
    Option SyntaxTree :=
  algo.find_node_at_offset ctx.source_file.root ctx.frange.range.start kind

/-- `AssistCtx::covering_element`: the smallest element covering the whole
target range. -/
def AssistCtx.covering_element (ctx : AssistCtx) : SyntaxTree :=
  find_covering_element ctx.source_file.root ctx.frange.range

/-- `AssistCtx::covering_node_for_range`: the smallest element covering the
given range. -/
def AssistCtx.covering_node_for_range (ctx : AssistCtx) (range : TextRange) :
    SyntaxTree :=
  find_covering_element ctx.source_file.root range

/-- Modelled from the spec: a syntax-node handle seen together with the
leading indentation determined by the whitespace tokens around it in its
file. The external utility `ra_fmt::leading_indent` walks tokens that are
not reachable from the node value alone, so the model carries its answer
as part of the handle. -/
structure SyntaxNodeRef where
  range : TextRange
  leadingIndent : Option String

/-- The span of the node, modelling `SyntaxNode::text_range()`. -/
def SyntaxNodeRef.text_range (n : SyntaxNodeRef) : TextRange := n.range

/-- Modelled from the spec: `ra_fmt::leading_indent` computes the node's
existing leading indentation from surrounding whitespace tokens, or none
when the node does not start a line. -/
def leading_indent (node : SyntaxNodeRef) : Option String :=
  node.leadingIndent

/-- Modelled from the spec: `ra_fmt::reindent` re-indents every line of
`text` after the first to the given indent, keeping each line's own
relative indentation. -/
def reindent (text : String) (indent : String) : String :=
  String.intercalate ("\n" ++ indent) (text.splitOn "\n")

/-- `ActionBuilder::replace_node_and_indent`: replaces the node's range
with the given string, reindented to the node's existing indent when the
node has one. -/
def ActionBuilder.replace_node_and_indent (b : ActionBuilder)
    (node : SyntaxNodeRef) (replace_with : String) : ActionBuilder :=
  let replaced :=
    match leading_indent node with
    | some indent => reindent replace_with indent
    | none => replace_with
  b.replace node.text_range replaced

/-- Rust `char::is_uppercase` (restricted to the ASCII letters that the
labels in this crate use). -/
def charIsUppercase (c : Char) : Bool := c.isUpper

/-- `AssistCtx::add_assist`: builds the label, asserts its first character
is uppercase (`label.label.chars().nth(0).unwrap().is_uppercase()`, a
panic when the label is empty or starts lowercase), then branches on the
mode flag: in check-only mode it returns `Unresolved` without running the
callback, in compute mode it runs the callback once on a default
`ActionBuilder`, builds it, and returns `Resolved` with that one action. -/
def AssistCtx.add_assist (ctx : AssistCtx) (id : AssistId) (label : String)
    (f : ActionBuilder → ActionBuilder) : Except String (Option Assist) :=
  let lbl : AssistLabel := { label := label, id := id }
  match lbl.label.toList.head? with
  | none => Except.error "called Option::unwrap on a None value"
  | some c =>
    if charIsUppercase c then
      let assist :=
        if ctx.should_compute_edit then
          let action := (f ActionBuilder.default).build
          Assist.Resolved
            { label := lbl, action_data := Sum.inl action }
        else
          Assist.Unresolved lbl
      Except.ok (some assist)
    else
      Except.error "assertion failed: first character of label is uppercase"

/-- `AssistCtx::add_assist_group`: builds the label (with no check on its
characters), then branches on the mode flag: in check-only mode it returns
`Unresolved` without running the callback, in compute mode it runs the
callback, asserts the returned vector is non-empty (panic message
`Assist cannot have no`), builds every `ActionBuilder` in order, and
returns `Resolved` with the group. -/
def AssistCtx.add_assist_group (ctx : AssistCtx) (id : AssistId)
    (label : String) (f : Unit → List ActionBuilder) :
    Except String (Option Assist) :=
  let lbl : AssistLabel := { label := label, id := id }
  if ctx.should_compute_edit then
    let actions := f ()
    if actions.isEmpty then
      Except.error "Assist cannot have no"
    else
      Except.ok (some (Assist.Resolved
        { label := lbl
          action_data := Sum.inr (actions.map ActionBuilder.build) }))
  else
    Except.ok (some (Assist.Unresolved lbl))

/-- Whether a registration outcome hands the caller a result: `true`
exactly when the entry point returned `Some(assist)` without panicking. -/
def producesResult : Except String (Option Assist) → Bool
  | Except.ok (some _) => true
  | _ => false

/-- Whether a registration outcome is a panic (`assert!` failure or
`unwrap` on `None`). -/
def aborts : Except String (Option Assist) → Bool
  | Except.error _ => true
  | _ => false

/-- A concrete parse tree used to instantiate the statements below. -/
def sampleTree : SyntaxTree :=
  SyntaxTree.node 0 { start := 0, stop := 10 }
    [SyntaxTree.token 1 { start := 0, stop := 4 },
     SyntaxTree.token 2 { start := 4, stop := 10 }]

/-- A concrete database mapping every file id to the sample tree. -/
def sampleDb : HirDatabase :=
  { parse := fun _ => { root := sampleTree } }

/-- A concrete check-only context over the sample database. -/
def checkCtx : AssistCtx :=
  { db := sampleDb
    frange := { file_id := 0, range := { start := 2, stop := 5 } }
    source_file := { root := sampleTree }
    should_compute_edit := false }

/-- A concrete compute-mode context over the sample database. -/
def computeCtx : AssistCtx :=
  { db := sampleDb
    frange := { file_id := 0, range := { start := 2, stop := 5 } }
    source_file := { root := sampleTree }
    should_compute_edit := true }

/-- C4: for every context, id, label and callback on which the entry points
do not abort, both `add_assist` and `add_assist_group` return `Some` of an
assist, never `None`: the value `Ok(None)` is unreachable. -/
theorem registration_never_returns_none :
    ∀ (ctx : AssistCtx) (id : AssistId) (label : String)
      (f : ActionBuilder → ActionBuilder) (g : Unit → List ActionBuilder),
      ctx.add_assist id label f ≠ Except.ok none ∧
      ctx.add_assist_group id label g ≠ Except.ok none := by
  intro ctx id label f g
  constructor
  · dsimp only [AssistCtx.add_assist]
    split
    · simp
    · split <;> simp
  · unfold AssistCtx.add_assist_group
    cases hm : ctx.should_compute_edit with
    | false => simp [hm]
    | true => cases he : (g ()).isEmpty <;> simp [he]

/-- C4 witness: the theorem instantiated at a concrete context, id, label
and callbacks. -/
theorem registration_never_returns_none_witness :
    checkCtx.add_assist { value := "a" } "Add x" (fun b => b) ≠
      Except.ok none ∧
    checkCtx.add_assist_group { value := "a" } "Add x"
      (fun _ => [ActionBuilder.default]) ≠ Except.ok none :=
  registration_never_returns_none checkCtx { value := "a" } "Add x"
    (fun b => b) (fun _ => [ActionBuilder.default])

/-- C5: `replace_node_and_indent` appends exactly one replace operation
covering the node's text range, whose text is the replacement reindented
to the node's leading indent when there is one and unchanged otherwise;
no other field of the builder changes. -/
theorem replace_node_and_indent_appends_one_replace :
    ∀ (b : ActionBuilder) (node : SyntaxNodeRef) (t : String),
      (b.replace_node_and_indent node t).edit.atoms =
        b.edit.atoms ++
          [{ delete := node.text_range
             insert :=
               match leading_indent node with
               | some indent => reindent t indent
               | none => t }] ∧
      (b.replace_node_and_indent node t).cursor_position =
        b.cursor_position ∧
      (b.replace_node_and_indent node t).target = b.target ∧
      (b.replace_node_and_indent node t).label = b.label := by
  intro b node t
  cases h : leading_indent node <;>
    simp [ActionBuilder.replace_node_and_indent, h, ActionBuilder.replace,
      TextEditBuilder.replace]

/-- C7: cloning a context copies the database handle, the file range and
the mode flag, and shares the parse tree (`SourceFile::clone` hands back
the same tree); the clone is observationally the original. -/
theorem clone_preserves_fields :
    ∀ ctx : AssistCtx,
      ctx.clone.db = ctx.db ∧
      ctx.clone.frange = ctx.frange ∧
      ctx.clone.should_compute_edit = ctx.should_compute_edit ∧
      ctx.clone.source_file = ctx.source_file.clone ∧
      ctx.clone.source_file.root = ctx.source_file.root ∧
      ctx.clone = ctx :=
  fun _ => ⟨rfl, rfl, rfl, rfl, rfl, rfl⟩

/-- C8: `set_cursor` is last-write-wins, the built action carries exactly
the last cursor set (or none when never set), and the other builder
operations leave the recorded cursor untouched. -/
theorem set_cursor_last_write_wins :
    ∀ (b : ActionBuilder) (o1 o2 : TextUnit) (r : TextRange) (t : String),
      (b.set_cursor o1).set_cursor o2 = b.set_cursor o2 ∧
      ((b.set_cursor o2).build).cursor_position = some o2 ∧
      (ActionBuilder.default.build).cursor_position = none ∧
      (b.replace r t).cursor_position = b.cursor_position ∧
      (b.insert o1 t).cursor_position = b.cursor_position ∧
      (b.delete r).cursor_position = b.cursor_position ∧
      (b.build).cursor_position = b.cursor_position :=
  fun _ _ _ _ _ => ⟨rfl, rfl, rfl, rfl, rfl, rfl, rfl⟩

/-- C9: calling `add_assist` with the empty label panics: the contract
check takes the first character of the label with `unwrap`, which does not
exist for the empty string. -/
theorem add_assist_empty_label_aborts :
    ∀ (ctx : AssistCtx) (id : AssistId) (f : ActionBuilder → ActionBuilder),
      ctx.add_assist id "" f =
        Except.error "called Option::unwrap on a None value" :=
  fun _ _ _ => rfl

/-- C10: `covering_element` returns exactly `covering_node_for_range`
applied to the context's own target range; both delegate to the same
covering-element search over the context's tree. -/
theorem covering_element_eq_covering_node_for_range :
    ∀ ctx : AssistCtx,
      ctx.covering_element = ctx.covering_node_for_range ctx.frange.range :=
  fun _ => rfl

theorem aborts_ok (x : Option Assist) : aborts (Except.ok x) = false := rfl

theorem aborts_error (e : String) : aborts (Except.error e) = true := rfl

theorem producesResult_ok_some (a : Assist) :
    producesResult (Except.ok (some a)) = true := rfl

theorem producesResult_error (e : String) :
    producesResult (Except.error e) = false := rfl

/-- C1 counterexample: `add_assist_group` performs no check on the label at
all: a label whose first character is lowercase registers successfully
(here in compute mode, even producing a resolved group). -/
theorem add_assist_group_accepts_lowercase_label :
    computeCtx.add_assist_group { value := "auto_import" } "add import"
      (fun _ => [ActionBuilder.default]) =
    Except.ok (some (Assist.Resolved
      { label := { label := "add import", id := { value := "auto_import" } }
        action_data := Sum.inr
          [{ edit := { atoms := [] }
             cursor_position := none
             target := none
             label := none }] })) := rfl

/-- C1 (amended): only `add_assist` enforces the label convention: it
aborts exactly when the label's first character is not uppercase (for a
non-empty label); `add_assist_group` performs no label check, and aborts
exactly when run in compute mode on a callback producing no actions. -/
theorem uppercase_check_only_in_add_assist :
    (∀ (ctx : AssistCtx) (id : AssistId) (label : String)
        (f : ActionBuilder → ActionBuilder) (c : Char),
        label.toList.head? = some c →
        aborts (ctx.add_assist id label f) = !charIsUppercase c) ∧
    (∀ (ctx : AssistCtx) (id : AssistId) (label : String)
        (g : Unit → List ActionBuilder),
        aborts (ctx.add_assist_group id label g) =
          (ctx.should_compute_edit && (g ()).isEmpty)) := by
  constructor
  · intro ctx id label f c hc
    dsimp only [AssistCtx.add_assist]
    rw [hc]
    cases hu : charIsUppercase c <;> simp [hu, aborts_ok, aborts_error]
  · intro ctx id label g
    dsimp only [AssistCtx.add_assist_group]
    cases hm : ctx.should_compute_edit with
    | false => simp [aborts_ok]
    | true =>
      cases hg : g () with
      | nil => simp [hg, aborts_error]
      | cons a as => simp [hg, aborts_ok]

/-- C1 witness: the amended theorem instantiated at a lowercase-first
label, with the hypothesis on the first character discharged. -/
theorem uppercase_check_only_in_add_assist_witness :
    ("add x".toList.head? = some 'a' ∧
      aborts (checkCtx.add_assist { value := "a" } "add x" (fun b => b)) =
        !charIsUppercase 'a') ∧
    aborts (computeCtx.add_assist_group { value := "a" } "add x"
        (fun _ => ([] : List ActionBuilder))) =
      (computeCtx.should_compute_edit &&
        ((fun _ : Unit => ([] : List ActionBuilder)) ()).isEmpty) :=
  ⟨⟨by decide,
      uppercase_check_only_in_add_assist.1 checkCtx { value := "a" } "add x"
        (fun b => b) 'a' (by decide)⟩,
    uppercase_check_only_in_add_assist.2 computeCtx { value := "a" } "add x"
      (fun _ => ([] : List ActionBuilder))⟩

/-- C2: with a valid label (non-empty, first character uppercase),
`add_assist` in check-only mode returns `Unresolved` with the label and is
independent of the callback, and in compute mode returns `Resolved`
carrying the single action obtained by running the callback once on a
default-constructed builder and building it. -/
theorem add_assist_mode_behavior :
    ∀ (ctx : AssistCtx) (id : AssistId) (label : String)
      (f g : ActionBuilder → ActionBuilder) (c : Char),
      label.toList.head? = some c → charIsUppercase c = true →
      ctx.add_assist id label f =
        Except.ok (some
          (if ctx.should_compute_edit then
            Assist.Resolved
              { label := { label := label, id := id }
                action_data := Sum.inl ((f ActionBuilder.default).build) }
          else Assist.Unresolved { label := label, id := id })) ∧
      (ctx.should_compute_edit = false →
        ctx.add_assist id label f = ctx.add_assist id label g) := by
  intro ctx id label f g c hc hu
  constructor
  · dsimp only [AssistCtx.add_assist]
    rw [hc]
    simp [hu]
  · intro hm
    dsimp only [AssistCtx.add_assist]
    rw [hc]
    simp [hu, hm]

/-- C2 witness: the theorem instantiated at the concrete compute-mode
context, with both hypotheses on the label discharged. -/
theorem add_assist_mode_behavior_witness :
    ("Add x".toList.head? = some 'A' ∧ charIsUppercase 'A' = true) ∧
    (computeCtx.add_assist { value := "a" } "Add x"
        (fun b => b.set_cursor 3) =
      Except.ok (some
        (if computeCtx.should_compute_edit then
          Assist.Resolved
            { label := { label := "Add x", id := { value := "a" } }
              action_data := Sum.inl
                (((fun b => ActionBuilder.set_cursor b 3)
                  ActionBuilder.default).build) }
        else Assist.Unresolved
          { label := "Add x", id := { value := "a" } })) ∧
      (computeCtx.should_compute_edit = false →
        computeCtx.add_assist { value := "a" } "Add x"
          (fun b => b.set_cursor 3) =
        computeCtx.add_assist { value := "a" } "Add x" (fun b => b))) :=
  ⟨⟨by decide, by decide⟩,
    add_assist_mode_behavior computeCtx { value := "a" } "Add x"
      (fun b => b.set_cursor 3) (fun b => b) 'A' (by decide) (by decide)⟩

/-- C3: in compute mode, `add_assist_group` aborts exactly when the
callback returns no builders; otherwise it builds each builder into its
own action, preserving order, and returns the resolved group, whose
payload is never the empty list. -/
theorem add_assist_group_compute_behavior :
    ∀ (ctx : AssistCtx) (id : AssistId) (label : String)
      (g : Unit → List ActionBuilder),
      ctx.should_compute_edit = true →
      (aborts (ctx.add_assist_group id label g) = true ↔ g () = []) ∧
      (g () ≠ [] →
        ctx.add_assist_group id label g =
          Except.ok (some (Assist.Resolved
            { label := { label := label, id := id }
              action_data := Sum.inr ((g ()).map ActionBuilder.build) })) ∧
        (g ()).map ActionBuilder.build ≠ []) := by
  intro ctx id label g hm
  dsimp only [AssistCtx.add_assist_group]
  rw [hm]
  cases hg : g () with
  | nil => simp [hg, aborts_error]
  | cons a as => simp [hg, aborts_ok]

/-- C3 witness: the theorem instantiated at the concrete compute-mode
context and a one-element callback, with the mode hypothesis discharged. -/
theorem add_assist_group_compute_behavior_witness :
    computeCtx.should_compute_edit = true ∧
    ((aborts (computeCtx.add_assist_group { value := "a" } "Add x"
        (fun _ => [ActionBuilder.default])) = true ↔
      (fun _ : Unit => [ActionBuilder.default]) () = []) ∧
     ((fun _ : Unit => [ActionBuilder.default]) () ≠ [] →
      computeCtx.add_assist_group { value := "a" } "Add x"
          (fun _ => [ActionBuilder.default]) =
        Except.ok (some (Assist.Resolved
          { label := { label := "Add x", id := { value := "a" } }
            action_data := Sum.inr
              (((fun _ : Unit => [ActionBuilder.default]) ()).map
                ActionBuilder.build) })) ∧
      (((fun _ : Unit => [ActionBuilder.default]) ()).map
        ActionBuilder.build) ≠ [])) :=
  ⟨rfl,
    add_assist_group_compute_behavior computeCtx { value := "a" } "Add x"
      (fun _ => [ActionBuilder.default]) rfl⟩

/-- C6: for a fixed database and range, constructing the context in
check-only mode or in compute mode changes no tree-query helper's answer,
and changes neither whether `add_assist` aborts nor whether it hands back
a result (even for different callbacks, which the verdict never consults);
the flag only selects the Unresolved-versus-Resolved shape. -/
theorem mode_flag_does_not_affect_queries_or_verdict :
    ∀ (db : HirDatabase) (frange : FileRange) (b₁ b₂ : Bool) (kind : Nat)
      (r : TextRange) (id : AssistId) (label : String)
      (f g : ActionBuilder → ActionBuilder),
      AssistCtx.with_ctx db frange b₁ AssistCtx.token_at_offset =
        AssistCtx.with_ctx db frange b₂ AssistCtx.token_at_offset ∧
      AssistCtx.with_ctx db frange b₁
          (fun ctx => ctx.find_token_at_offset kind) =
        AssistCtx.with_ctx db frange b₂
          (fun ctx => ctx.find_token_at_offset kind) ∧
      AssistCtx.with_ctx db frange b₁
          (fun ctx => ctx.find_node_at_offset kind) =
        AssistCtx.with_ctx db frange b₂
          (fun ctx => ctx.find_node_at_offset kind) ∧
      AssistCtx.with_ctx db frange b₁ AssistCtx.covering_element =
        AssistCtx.with_ctx db frange b₂ AssistCtx.covering_element ∧
      AssistCtx.with_ctx db frange b₁
          (fun ctx => ctx.covering_node_for_range r) =
        AssistCtx.with_ctx db frange b₂
          (fun ctx => ctx.covering_node_for_range r) ∧
      producesResult (AssistCtx.with_ctx db frange b₁
          (fun ctx => ctx.add_assist id label f)) =
        producesResult (AssistCtx.with_ctx db frange b₂
          (fun ctx => ctx.add_assist id label g)) ∧
      aborts (AssistCtx.with_ctx db frange b₁
          (fun ctx => ctx.add_assist id label f)) =
        aborts (AssistCtx.with_ctx db frange b₂
          (fun ctx => ctx.add_assist id label g)) := by
  intro db frange b₁ b₂ kind r id label f g
  refine ⟨rfl, rfl, rfl, rfl, rfl, ?_, ?_⟩ <;>
  · dsimp only [AssistCtx.with_ctx, AssistCtx.add_assist]
    cases hc : label.toList.head? with
    | none => rfl
    | some c =>
      cases hu : charIsUppercase c with
      | false => simp [hu]
      | true => cases b₁ <;> cases b₂ <;>
          simp [hu, producesResult_ok_some, aborts_ok]
